import Mathlib

/-!
Shallow embedding of the matchmaking server of the OpenMelee repository
(`src/src/matchmaking.rs`): the data model, the wire-codec fragment used
by the server, the event handler, the grouping step and the game-session
builder, together with theorems settling the specification claims.

Randomness and wall-clock time are passed as explicit parameters. A Rust
`unwrap` on a value that can be absent is modelled by `Option` threading:
a `none` result models a panic of the process.
-/

namespace OpenMelee

/-- The `OnlinePlayMode` enum (matchmaking.rs lines 108-115). -/
inductive OnlinePlayMode where
  | Ranked
  | Unranked
  | Direct
  | Teams
deriving DecidableEq

/-- Numeric wire codes of `OnlinePlayMode` (`repr(u8)` with `serde_repr`). -/
def OnlinePlayMode.code : OnlinePlayMode → Nat
  | .Ranked => 0
  | .Unranked => 1
  | .Direct => 2
  | .Teams => 3

/-- Deserialization of the numeric mode code; `Deserialize_repr` rejects
any number that is not one of the four declared codes. -/
def OnlinePlayMode.ofCode (n : Nat) : Option OnlinePlayMode :=
  if n = 0 then some .Ranked
  else if n = 1 then some .Unranked
  else if n = 2 then some .Direct
  else if n = 3 then some .Teams
  else none

/-- The `fmt::Display` rendering of a mode (matchmaking.rs lines 117-127). -/
def OnlinePlayMode.display : OnlinePlayMode → String
  | .Ranked => "ranked"
  | .Unranked => "unranked"
  | .Direct => "direct"
  | .Teams => "teams"

/-- The `ControllerPort` enum (matchmaking.rs lines 85-92). -/
inductive ControllerPort where
  | One
  | Two
  | Three
  | Four
deriving DecidableEq, Fintype

/-- `ControllerPort::get_ports` (matchmaking.rs lines 94-106). -/
def ControllerPort.get_ports : OnlinePlayMode → List ControllerPort
  | .Teams => [.One, .Two, .Three, .Four]
  | _ => [.One, .Two]

/-- The `Stage` enum (matchmaking.rs lines 129-138). -/
inductive Stage where
  | FountainOfDreams
  | PokemonStadium
  | YoshisStory
  | DreamLand
  | Battlefield
  | FinalDestination
deriving DecidableEq

/-- Numeric wire codes of `Stage` (`repr(u8)`). -/
def Stage.code : Stage → Nat
  | .FountainOfDreams => 0x2
  | .PokemonStadium => 0x3
  | .YoshisStory => 0x8
  | .DreamLand => 0x1C
  | .Battlefield => 0x1F
  | .FinalDestination => 0x20

/-- `Stage::get_allowed_stages` (matchmaking.rs lines 140-157): five base
stages, with Fountain of Dreams pushed at the end for every mode except
Teams. -/
def Stage.get_allowed_stages (mode : OnlinePlayMode) : List Stage :=
  let allowed_stages : List Stage :=
    [.PokemonStadium, .YoshisStory, .DreamLand, .Battlefield, .FinalDestination]
  match mode with
  | .Teams => allowed_stages
  | _ => allowed_stages ++ [.FountainOfDreams]

/-- Modelled from the spec: the legacy double-byte codec used for the
`connectCode` byte array, namely the SHIFT_JIS decoder of the external
`encoding_rs` crate (not part of this repository's sources). It is
restricted here to the ranges connect codes exercise: lead byte 0x81
with trail 0x94 (the full-width number sign) and the lead-byte-0x82 rows
of full-width digits and full-width Latin letters; any other two-byte
sequence decodes to the replacement character U+FFFD, mirroring the
crate's lossy decode, which never fails. -/
def sjisTwoByte (b1 b2 : Nat) : Char :=
  if b1 = 0x81 ∧ b2 = 0x94 then Char.ofNat 0xFF03
  else if b1 = 0x82 ∧ 0x4F ≤ b2 ∧ b2 ≤ 0x58 then Char.ofNat (0xFF10 + (b2 - 0x4F))
  else if b1 = 0x82 ∧ 0x60 ≤ b2 ∧ b2 ≤ 0x79 then Char.ofNat (0xFF21 + (b2 - 0x60))
  else if b1 = 0x82 ∧ 0x81 ≤ b2 ∧ b2 ≤ 0x9A then Char.ofNat (0xFF41 + (b2 - 0x81))
  else Char.ofNat 0xFFFD

/-- Lead bytes that open a double-byte SHIFT_JIS sequence. -/
def sjisIsLead (b : Nat) : Bool :=
  decide ((0x81 ≤ b ∧ b ≤ 0x9F) ∨ (0xE0 ≤ b ∧ b ≤ 0xEF))

/-- Modelled from the spec: byte-sequence level SHIFT_JIS decoding (the
external crate's lossy decode). ASCII bytes decode to themselves, a lead
byte consumes the following trail byte, anything else becomes U+FFFD. -/
def sjisDecode : List Nat → List Char
  | [] => []
  | [b] => if b ≤ 0x7F then [Char.ofNat b] else [Char.ofNat 0xFFFD]
  | b1 :: b2 :: rest =>
    if b1 ≤ 0x7F then Char.ofNat b1 :: sjisDecode (b2 :: rest)
    else if sjisIsLead b1 then sjisTwoByte b1 b2 :: sjisDecode rest
    else Char.ofNat 0xFFFD :: sjisDecode (b2 :: rest)

/-- Modelled from the spec: Unicode compatibility composition (NFKC, the
external `unicode_normalization` crate, not part of this repository's
sources), restricted to the characters the codec model can produce: the
full-width ASCII variants U+FF01 to U+FF5E normalize to their ASCII
counterparts; ASCII characters and U+FFFD are NFKC-inert. -/
def nfkcChar (c : Char) : Char :=
  if 0xFF01 ≤ c.toNat ∧ c.toNat ≤ 0xFF5E then Char.ofNat (c.toNat - 0xFF01 + 0x21) else c

/-- NFKC normalization of a character sequence (see `nfkcChar`). -/
def nfkc (cs : List Char) : List Char := cs.map nfkcChar

/-- `shift_jis_code_point_array_to_string` (matchmaking.rs lines 39-46):
once a byte array has been obtained, decode it with SHIFT_JIS, normalize
with NFKC, and always return `Some` of the result. -/
def shift_jis_code_point_array_to_string (v : List Nat) : Option String :=
  some (String.mk (nfkc (sjisDecode v)))

/-- The `User` struct carried inside a ticket (matchmaking.rs lines 18-25). -/
structure User where
  uid : String
  play_key : String
  display_name : String
  connect_code : String
deriving DecidableEq

/-- The `Search` struct (matchmaking.rs lines 27-37): the optional decoded
target connect code and the requested play mode. -/
structure Search where
  connect_code : Option String
  mode : OnlinePlayMode
deriving DecidableEq

/-- The `CreateTicket` struct (matchmaking.rs lines 159-166). -/
structure CreateTicket where
  app_version : String
  ip_address_lan : String
  search : Search
  user : User
deriving DecidableEq

/-- An ENet peer address (ip, udp port) as consumed by `Player::new`. -/
structure Address where
  ip : String
  port : Nat
deriving DecidableEq

/-- The `Player` session-view struct (matchmaking.rs lines 48-58). -/
structure Player where
  is_local_player : Bool
  ip_address : String
  ip_address_lan : String
  port : ControllerPort
  uid : String
  display_name : String
  connect_code : String
deriving DecidableEq

/-- `Player::new` (matchmaking.rs lines 60-83): copy the identity fields
out of the ticket, render the observed transport address as "ip:port",
and take the LAN address verbatim from the ticket. -/
def Player.new (ticket : CreateTicket) (address : Address)
    (is_local_player : Bool) (port : ControllerPort) : Player :=
  { uid := ticket.user.uid
    display_name := ticket.user.display_name
    connect_code := ticket.user.connect_code
    ip_address := address.ip ++ ":" ++ toString address.port
    ip_address_lan := ticket.ip_address_lan
    is_local_player := is_local_player
    port := port }

/-- The payload of the `get-ticket-resp` variant of `MatchmakingMessage`
(matchmaking.rs lines 173-181). -/
structure GetTicketFields where
  latest_version : String
  match_id : String
  is_host : Bool
  is_assigned : Bool
  players : List Player
  stages : List Stage
deriving DecidableEq

/-- The `MatchmakingMessage` tagged union (matchmaking.rs lines 168-182). -/
inductive MatchmakingMessage where
  | createTicketResponse
  | getTicketResponse (fields : GetTicketFields)
deriving DecidableEq

/-- Projection onto the `get-ticket-resp` payload. -/
def MatchmakingMessage.ticketFields : MatchmakingMessage → Option GetTicketFields
  | .createTicketResponse => none
  | .getTicketResponse fields => some fields

/-- `LATEST_SLIPPI_CLIENT_VERSION` (lib.rs line 13). -/
def LATEST_SLIPPI_CLIENT_VERSION : String := "2.5.1"

/-- A JSON value, as produced by `serde_json` from a packet's text. -/
inductive Json where
  | null
  | bool (b : Bool)
  | num (n : Int)
  | str (s : String)
  | arr (elems : List Json)
  | obj (fields : List (String × Json))

/-- Field lookup in a JSON object; fails on non-objects. -/
def Json.getField : Json → String → Option Json
  | .obj fields, k => fields.lookup k
  | _, _ => none

/-- Deserialize a JSON string. -/
def Json.asStr : Json → Option String
  | .str s => some s
  | _ => none

/-- Deserialize a JSON number as a `u8` byte value. -/
def Json.asByte : Json → Option Nat
  | .num n => if 0 ≤ n ∧ n < 256 then some n.toNat else none
  | _ => none

/-- Deserialize a JSON array of numbers as a `Vec<u8>`. -/
def Json.asByteArray : Json → Option (List Nat)
  | .arr elems => elems.mapM Json.asByte
  | _ => none

/-- Serde deserialization of `User`: four required string fields with
camel-case wire names; unknown fields are ignored. -/
def decodeUser (j : Json) : Option User := do
  let uid ← (j.getField "uid").bind Json.asStr
  let play_key ← (j.getField "playKey").bind Json.asStr
  let display_name ← (j.getField "displayName").bind Json.asStr
  let connect_code ← (j.getField "connectCode").bind Json.asStr
  pure { uid := uid, play_key := play_key,
         display_name := display_name, connect_code := connect_code }

/-- Serde deserialization of `Search` (matchmaking.rs lines 27-37): the
`mode` field is a required numeric mode code; the `connectCode` field is
optional (`serde(default)` yields `None` when it is absent) and, when
present, must be a byte array, which is decoded through
`shift_jis_code_point_array_to_string`. -/
def decodeSearch (j : Json) : Option Search := do
  let mode ← ((j.getField "mode").bind Json.asByte).bind OnlinePlayMode.ofCode
  match j.getField "connectCode" with
  | none => pure { connect_code := none, mode := mode }
  | some v => do
    let bytes ← v.asByteArray
    let code ← shift_jis_code_point_array_to_string bytes
    pure { connect_code := some code, mode := mode }

/-- Serde deserialization of `CreateTicket` (matchmaking.rs lines
159-166): four required fields; any other field (such as the "type" tag)
is ignored. -/
def decodeCreateTicket (j : Json) : Option CreateTicket := do
  let app_version ← (j.getField "appVersion").bind Json.asStr
  let ip_address_lan ← (j.getField "ipAddressLan").bind Json.asStr
  let search ← (j.getField "search").bind decodeSearch
  let user ← (j.getField "user").bind decodeUser
  pure { app_version := app_version, ip_address_lan := ip_address_lan,
         search := search, user := user }

/-- Outcome of the `Receive` arm of `handle_enet_event`. `crash` models a
failed `unwrap`, which aborts the whole process and with it the serving
loop. In the `handled` outcome, `newData` is the ticket stored on the
sending peer with `set_data` (which happens before the mode dispatch),
`response` is the packet sent back, and `disconnect` records a
`disconnect_later` call on the sender. -/
inductive ReceiveOutcome where
  | crash
  | handled (newData : CreateTicket) (response : Option MatchmakingMessage) (disconnect : Bool)
deriving DecidableEq

/-- The `Receive` arm of `handle_enet_event` (matchmaking.rs lines
224-258). The payload parameter is `none` when the packet's bytes are not
valid UTF-8 JSON text: both `std::str::from_utf8(..).unwrap()` and
`serde_json::from_str(..).unwrap()` panic on such input, as does a
payload that parses but is not a well-formed ticket. On success the
ticket is attached to the peer, then Direct mode is acknowledged with a
`create-ticket-resp` while every other mode gets no response and a
deferred disconnect. -/
def handle_enet_event_receive (payload : Option Json) : ReceiveOutcome :=
  match payload with
  | none => .crash
  | some j =>
    match decodeCreateTicket j with
    | none => .crash
    | some message =>
      match message.search.mode with
      | .Direct => .handled message (some .createTicketResponse) false
      | _ => .handled message none true

/-- `get_match_id` (matchmaking.rs lines 317-320): the construction time
is passed explicitly as its RFC 3339 rendering. -/
def get_match_id (mode : OnlinePlayMode) (now : String) : String :=
  "mode." ++ mode.display ++ "-" ++ now

/-- One draw of the thread RNG inside `create_game`: the outcome of
`ports.choose_multiple(rng, n)` and of `ports.iter().choose(rng)`. -/
structure Draw where
  randomized_ports : List ControllerPort
  host_port : Option ControllerPort
deriving DecidableEq

/-- The draws the RNG can actually produce for a group of `n` players in
the given mode: `choose_multiple` returns `min n (pool size)` distinct
pool elements in arbitrary order, and `choose` returns some pool element
(the pool is never empty). -/
def validDraw (mode : OnlinePlayMode) (n : Nat) (d : Draw) : Prop :=
  d.randomized_ports.length = min n (ControllerPort.get_ports mode).length ∧
  d.randomized_ports.Nodup ∧
  (∀ p ∈ d.randomized_ports, p ∈ ControllerPort.get_ports mode) ∧
  (∃ h, d.host_port = some h ∧ h ∈ ControllerPort.get_ports mode)

instance (mode : OnlinePlayMode) (n : Nat) (d : Draw) : Decidable (validDraw mode n d) := by
  unfold validDraw; infer_instance

/-- `create_game` (matchmaking.rs lines 322-360). The RNG draw and the
construction time are explicit parameters; `none` models a panic of one
of the `unwrap` calls: `ports.get(i)` or `randomized_ports.get(j)` out of
range, or an absent host port. Note that `is_host` compares the entry of
the unshuffled pool `ports` at the message index with the host port,
while the port assigned to member `j` in every `players` list is the
entry of the shuffled `randomized_ports` at `j`. -/
def create_game (_players : List (CreateTicket × Address)) (mode : OnlinePlayMode)
    (d : Draw) (now : String) : Option (List MatchmakingMessage) :=
  let match_id := get_match_id mode now
  let stages := Stage.get_allowed_stages mode
  let ports := ControllerPort.get_ports mode
  (List.range _players.length).mapM fun i => do
    let pi ← ports.get? i
    let hp ← d.host_port
    let players ← _players.enum.mapM fun ja => do
      let rp ← d.randomized_ports.get? ja.1
      pure (Player.new ja.2.1 ja.2.2 (decide (i = ja.1)) rp)
    pure (MatchmakingMessage.getTicketResponse
      { latest_version := LATEST_SLIPPI_CLIENT_VERSION
        match_id := match_id
        is_host := decide (pi = hp)
        is_assigned := true
        players := players
        stages := stages })

/-- The connection states of an ENet peer; only `Connected` matters to
the matchmaking loop's filter. -/
inductive PeerState where
  | Connected
  | Connecting
  | Disconnecting
deriving DecidableEq

/-- An ENet peer as seen by the loop: its connection state, the attached
application data (the peer's current ticket, if any) and its transport
address. -/
structure Peer where
  state : PeerState
  data : Option CreateTicket
  address : Address
deriving DecidableEq

/-- The Direct-mode grouping key of a peer (matchmaking.rs lines
268-276): the `HashSet` of the ticket's own connect code and its target
connect code, an unordered pair. `none` models the panic of
`peer.data().unwrap()` or of `search.connect_code.clone().unwrap()`. -/
def peerKey (p : Peer) : Option (Finset String) :=
  p.data.bind fun t =>
    t.search.connect_code.map fun target =>
      ({t.user.connect_code, target} : Finset String)

/-- Totalized grouping key, meaningful whenever `peerKey` is `some`. -/
def peerKeyTotal (p : Peer) : Finset String :=
  (peerKey p).getD ∅

/-- Itertools `group_by` (as used on matchmaking.rs lines 212 and 268):
split a list into maximal runs of consecutive elements with equal keys.
It does not merge non-adjacent elements that share a key. -/
def chunkRuns (key : α → κ) [DecidableEq κ] : List α → List (List α)
  | [] => []
  | [a] => [[a]]
  | a :: b :: rest =>
    match chunkRuns key (b :: rest) with
    | [] => [[a]]
    | g :: gs => if key a = key b then (a :: g) :: gs else [a] :: g :: gs

/-- The grouping step of `handle_matchmaking` (matchmaking.rs lines
262-284): in Direct mode, chunk the peers into runs sharing the
unordered connect-code-pair key and keep every run with strictly more
than one member, in run order; in every other mode no group is formed.
`none` models the panic raised while keying a Direct peer whose ticket
has no target connect code (the keys of all peers are computed while the
groups are consumed, before any message is sent). -/
def matched_groups (mode : OnlinePlayMode) (peers : List Peer) :
    Option (List (List Peer)) :=
  if mode = .Direct then
    if peers.all fun p => (peerKey p).isSome then
      some ((chunkRuns peerKeyTotal peers).filter fun g => 1 < g.length)
    else none
  else some []

/-- `handle_matchmaking` (matchmaking.rs lines 262-315): form the matched
groups, then for each group call `create_game` on the members' (ticket,
address) pairs and zip the members with the rendered messages that are
sent to them. `draws` supplies the RNG draw consumed by the group at each
index. No peer data is written anywhere in this function. -/
def handle_matchmaking (mode : OnlinePlayMode) (peers : List Peer)
    (draws : Nat → Draw) (now : String) :
    Option (List (List Peer × List MatchmakingMessage)) := do
  let groups ← matched_groups mode peers
  groups.enum.mapM fun ig => do
    let group_players ← ig.2.mapM fun p => p.data.map fun t => (t, p.address)
    let msgs ← create_game group_players mode (draws ig.1) now
    pure (ig.2, msgs)

/-- The peer filter of the loop body (matchmaking.rs lines 207-210):
established peers that carry a ticket. -/
def connected_peers (peers : List Peer) : List Peer :=
  (peers.filter fun p => p.state == PeerState.Connected).filter fun p => p.data.isSome

/-- One iteration of the `start_server` loop after event handling
(matchmaking.rs lines 202-217): filter the established ticketed peers,
chunk them by game mode (itertools `group_by` again, so consecutive runs)
and run `handle_matchmaking` on every chunk with the chunk's mode. The
result pairs the sent (group, messages) list with the registry after the
iteration; no statement of the loop body writes peer data, so the
registry is returned unchanged. -/
def server_iteration (peers : List Peer) (draws : Nat → Nat → Draw) (now : String) :
    Option (List (List Peer × List MatchmakingMessage) × List Peer) := do
  let cps := connected_peers peers
  let chunks := chunkRuns (fun p => p.data.map fun t => t.search.mode) cps
  let sent ← chunks.enum.mapM fun ic => do
    let mode ← (ic.2.head?.bind Peer.data).map fun t => t.search.mode
    handle_matchmaking mode ic.2 (draws ic.1) now
  pure (sent.flatten, peers)

/-! Concrete fixtures used by witnesses and counterexamples: two
mutually-targeting Direct peers `cpA`/`cpB`, a third stray peer `cpC`
sharing their grouping key, an unrelated Direct peer `cpX`, and concrete
RNG draws. -/

/-- Fixture ticket: peer A, own code AAA#001, targeting BBB#002. -/
def ctA : CreateTicket :=
  { app_version := "2.5.1", ip_address_lan := "192.168.0.1:50285"
    search := { connect_code := some "BBB#002", mode := .Direct }
    user := { uid := "1", play_key := "k1", display_name := "alice", connect_code := "AAA#001" } }

/-- Fixture ticket: peer B, own code BBB#002, targeting AAA#001. -/
def ctB : CreateTicket :=
  { app_version := "2.5.1", ip_address_lan := "192.168.0.2:50286"
    search := { connect_code := some "AAA#001", mode := .Direct }
    user := { uid := "2", play_key := "k2", display_name := "bob", connect_code := "BBB#002" } }

/-- Fixture ticket: a stray third peer with the same unordered key as A
and B (own AAA#001, targeting BBB#002 as well). -/
def ctC : CreateTicket :=
  { app_version := "2.5.1", ip_address_lan := "192.168.0.3:50287"
    search := { connect_code := some "BBB#002", mode := .Direct }
    user := { uid := "3", play_key := "k3", display_name := "carol", connect_code := "AAA#001" } }

/-- Fixture ticket: an unrelated Direct peer with a disjoint key. -/
def ctX : CreateTicket :=
  { app_version := "2.5.1", ip_address_lan := "192.168.0.4:50288"
    search := { connect_code := some "DDD#004", mode := .Direct }
    user := { uid := "4", play_key := "k4", display_name := "xavier", connect_code := "CCC#003" } }

/-- Fixture peer A (established, ticketed). -/
def cpA : Peer := { state := .Connected, data := some ctA, address := { ip := "10.0.0.1", port := 101 } }

/-- Fixture peer B (established, ticketed). -/
def cpB : Peer := { state := .Connected, data := some ctB, address := { ip := "10.0.0.2", port := 102 } }

/-- Fixture peer C (established, ticketed, same key as A and B). -/
def cpC : Peer := { state := .Connected, data := some ctC, address := { ip := "10.0.0.3", port := 103 } }

/-- Fixture peer X (established, ticketed, unrelated key). -/
def cpX : Peer := { state := .Connected, data := some ctX, address := { ip := "10.0.0.4", port := 104 } }

/-- A reachable RNG draw for a 2-player Direct group that assigns the
ports in swapped order and picks port One as host. -/
def cdSwap : Draw := { randomized_ports := [.Two, .One], host_port := some .One }

/-- A reachable RNG draw for a 2-player Direct group that assigns the
ports in pool order and picks port One as host. -/
def cdIdentity : Draw := { randomized_ports := [.One, .Two], host_port := some .One }

/-- Fixture JSON for the `user` object of a well-formed ticket. -/
def jsonUser : Json :=
  .obj [("uid", .str "1"), ("playKey", .str "1"),
        ("displayName", .str "test"), ("connectCode", .str "TEST#001")]

/-- Fixture JSON: a well-formed Direct ticket whose `search` omits the
`connectCode` field entirely. -/
def directNoCodeJson : Json :=
  .obj [("type", .str "create-ticket"), ("appVersion", .str "2.5.1"),
        ("ipAddressLan", .str "127.0.0.2:51000"),
        ("search", .obj [("mode", .num 2)]), ("user", jsonUser)]

/-- The ticket `directNoCodeJson` decodes to. -/
def directNoCodeTicket : CreateTicket :=
  { app_version := "2.5.1", ip_address_lan := "127.0.0.2:51000"
    search := { connect_code := none, mode := .Direct }
    user := { uid := "1", play_key := "1", display_name := "test", connect_code := "TEST#001" } }

/-- Fixture peer carrying the no-target Direct ticket. -/
def cpNoCode : Peer :=
  { state := .Connected, data := some directNoCodeTicket,
    address := { ip := "127.0.0.1", port := 9 } }

/-- Fixture JSON: a well-formed ticket requesting Teams mode. -/
def teamsJson : Json :=
  .obj [("type", .str "create-ticket"), ("appVersion", .str "2.5.1"),
        ("ipAddressLan", .str "127.0.0.2:51000"),
        ("search", .obj [("mode", .num 3)]), ("user", jsonUser)]

/-- The ticket `teamsJson` decodes to. -/
def teamsTicket : CreateTicket :=
  { app_version := "2.5.1", ip_address_lan := "127.0.0.2:51000"
    search := { connect_code := none, mode := .Teams }
    user := { uid := "1", play_key := "1", display_name := "test", connect_code := "TEST#001" } }

/-- Fixture JSON: syntactically valid JSON whose `mode` is the unknown
code 7, so ticket deserialization fails. -/
def unknownModeJson : Json :=
  .obj [("type", .str "create-ticket"), ("appVersion", .str "2.5.1"),
        ("ipAddressLan", .str "127.0.0.2:51000"),
        ("search", .obj [("mode", .num 7)]), ("user", jsonUser)]

/-- Fixture JSON: syntactically valid JSON with the required `user` field
missing, so ticket deserialization fails. -/
def missingFieldJson : Json :=
  .obj [("type", .str "create-ticket"), ("appVersion", .str "2.5.1"),
        ("ipAddressLan", .str "127.0.0.2:51000"),
        ("search", .obj [("mode", .num 2)])]

/-- The SHIFT_JIS byte array of the repository's own
`can_parse_create_ticket_direct_message` test, encoding the full-width
rendering of TEST#002. -/
def c8Bytes : List Nat :=
  [130, 115, 130, 100, 130, 114, 130, 115, 129, 148, 130, 79, 130, 79, 130, 81]

/-- The byte array `c8Bytes` as a JSON number array. -/
def c8BytesJson : Json := .arr (c8Bytes.map fun b => .num b)

/-- Fixture JSON: the `search` object of the repository's own
`can_parse_create_ticket_direct_message` test, with the target connect
code as a SHIFT_JIS byte array. -/
def byteArraySearchJson : Json :=
  .obj [("connectCode", c8BytesJson), ("mode", .num 2)]

/-! Helper lemmas about `Option`-monad `mapM` and about `chunkRuns`. -/

theorem mapM_option_cons {α β : Type} (f : α → Option β) (a : α) (l : List α) :
    (a :: l).mapM f = (f a).bind fun b => (l.mapM f).bind fun bs => some (b :: bs) := by
  rw [← List.mapM'_eq_mapM, ← List.mapM'_eq_mapM]; rfl

theorem mapM_option_nil {α β : Type} (f : α → Option β) :
    ([] : List α).mapM f = some [] := rfl

/-- If any element of the list maps to `none`, the whole `mapM` is `none`. -/
theorem mapM_option_eq_none {α β : Type} (f : α → Option β) :
    ∀ (l : List α) (x : α), x ∈ l → f x = none → l.mapM f = none := by
  intro l
  induction l with
  | nil => intro x hx; cases hx
  | cons a l ih =>
    intro x hx hfx
    rw [mapM_option_cons]
    rcases List.mem_cons.mp hx with h | h
    · subst h; rw [hfx]; rfl
    · cases hfa : f a with
      | none => rfl
      | some b => rw [ih x h hfx]; rfl

/-- Pointwise reading of a successful `mapM`: the output at index `i` is
the image of the input at index `i`. -/
theorem mapM_option_get {α β : Type} (f : α → Option β) :
    ∀ (l : List α) (ys : List β), l.mapM f = some ys →
      ∀ (i : Nat) (x : α), l.get? i = some x → ∃ y, ys.get? i = some y ∧ f x = some y := by
  intro l
  induction l with
  | nil => intro ys _ i x hx; simp at hx
  | cons a l ih =>
    intro ys hmap i x hx
    rw [mapM_option_cons] at hmap
    cases hfa : f a with
    | none => rw [hfa] at hmap; simp at hmap
    | some b =>
      rw [hfa] at hmap
      cases hml : l.mapM f with
      | none => rw [hml] at hmap; simp at hmap
      | some bs =>
        rw [hml] at hmap
        have hys : b :: bs = ys := Option.some.inj hmap
        subst hys
        cases i with
        | zero =>
          simp only [List.get?] at hx ⊢
          obtain rfl : a = x := Option.some.inj hx
          exact ⟨b, rfl, hfa⟩
        | succ i =>
          simp only [List.get?] at hx ⊢
          exact ih bs hml i x hx

/-- A successful `mapM` preserves the list length. -/
theorem mapM_option_length {α β : Type} (f : α → Option β) :
    ∀ (l : List α) (ys : List β), l.mapM f = some ys → ys.length = l.length := by
  intro l
  induction l with
  | nil => intro ys h; obtain rfl := Option.some.inj h; rfl
  | cons a l ih =>
    intro ys h
    rw [mapM_option_cons] at h
    cases hfa : f a with
    | none => rw [hfa] at h; simp at h
    | some b =>
      rw [hfa] at h
      cases hml : l.mapM f with
      | none => rw [hml] at h; simp at h
      | some bs =>
        rw [hml] at h
        obtain rfl := Option.some.inj h
        simp [ih bs hml]

/-- `chunkRuns` of a nonempty list is nonempty. -/
theorem chunkRuns_ne_nil {α κ : Type} (key : α → κ) [DecidableEq κ] (x : α) (xs : List α) :
    chunkRuns key (x :: xs) ≠ [] := by
  cases xs with
  | nil => exact fun h => absurd h (List.cons_ne_nil [x] [])
  | cons b rest =>
    cases e : chunkRuns key (b :: rest) with
    | nil =>
      have hres : chunkRuns key (x :: b :: rest) = [[x]] := by simp [chunkRuns, e]
      rw [hres]; exact List.cons_ne_nil _ _
    | cons g gs =>
      by_cases h : key x = key b
      · have hres : chunkRuns key (x :: b :: rest) = (x :: g) :: gs := by
          simp [chunkRuns, e, h]
        rw [hres]; exact List.cons_ne_nil _ _
      · have hres : chunkRuns key (x :: b :: rest) = [x] :: g :: gs := by
          simp [chunkRuns, e, h]
        rw [hres]; exact List.cons_ne_nil _ _

/-- The first chunk of `chunkRuns` on a nonempty list starts with the
list's head. -/
theorem chunkRuns_head_shape {α κ : Type} (key : α → κ) [DecidableEq κ] (x : α) (xs : List α) :
    ∃ t gs, chunkRuns key (x :: xs) = (x :: t) :: gs := by
  cases xs with
  | nil => exact ⟨[], [], rfl⟩
  | cons b rest =>
    cases e : chunkRuns key (b :: rest) with
    | nil => exact absurd e (chunkRuns_ne_nil key b rest)
    | cons g gs =>
      by_cases h : key x = key b
      · exact ⟨g, gs, by simp [chunkRuns, e, h]⟩
      · exact ⟨[], g :: gs, by simp [chunkRuns, e, h]⟩

/-- Two adjacent elements with equal keys always land in the same chunk,
and adjacently so. -/
theorem chunkRuns_adjacent {α κ : Type} (key : α → κ) [DecidableEq κ] (a b : α)
    (hk : key a = key b) :
    ∀ (l1 l2 : List α), ∃ c, c ∈ chunkRuns key (l1 ++ a :: b :: l2) ∧
      ∃ u v, c = u ++ a :: b :: v := by
  intro l1
  induction l1 with
  | nil =>
    intro l2
    obtain ⟨t, gs, h⟩ := chunkRuns_head_shape key b l2
    refine ⟨a :: b :: t, ?_, [], t, rfl⟩
    simp [chunkRuns, h, hk]
  | cons x l1 ih =>
    intro l2
    obtain ⟨y, rest, hyr⟩ : ∃ y rest, l1 ++ a :: b :: l2 = y :: rest := by
      cases l1 <;> exact ⟨_, _, rfl⟩
    obtain ⟨c, hc, u, v, hcuv⟩ := ih l2
    rw [hyr] at hc
    cases e : chunkRuns key (y :: rest) with
    | nil => exact absurd e (chunkRuns_ne_nil key y rest)
    | cons g gs =>
      rw [e] at hc
      by_cases hxy : key x = key y
      · have hres : chunkRuns key ((x :: l1) ++ a :: b :: l2) = (x :: g) :: gs := by
          simp only [List.cons_append, hyr, chunkRuns, e, if_pos hxy]
        rcases List.mem_cons.mp hc with hcg | hcgs
        · refine ⟨x :: g, ?_, x :: u, v, ?_⟩
          · rw [hres]; exact List.mem_cons_self _ _
          · subst hcg; simp [hcuv]
        · exact ⟨c, by rw [hres]; exact List.mem_cons_of_mem _ hcgs, u, v, hcuv⟩
      · have hres : chunkRuns key ((x :: l1) ++ a :: b :: l2) = [x] :: g :: gs := by
          simp only [List.cons_append, hyr, chunkRuns, e, if_neg hxy]
        exact ⟨c, by rw [hres]; exact List.mem_cons_of_mem _ hc, u, v, hcuv⟩

/-! Claim theorems. -/

/-- C1 counterexample: in a registry of the two mutually-targeting Direct
peers `cpA` and `cpB`, one loop iteration matches the group and sends its
two rendered messages, yet afterwards both peers still carry their
tickets (`some ctA`, `some ctB` rather than `none`), and the very next
iteration emits the same group from the same tickets again — the ticket
of a matched member is never cleared from the registry. -/
theorem c1_tickets_not_cleared_cex :
    ((server_iteration [cpA, cpB] (fun _ _ => cdSwap) "T1").map fun out =>
        (out.1.map fun gm => (gm.1, gm.2.length), out.2.map Peer.data))
      = some ([([cpA, cpB], 2)], [some ctA, some ctB]) ∧
    ((server_iteration [cpA, cpB] (fun _ _ => cdSwap) "T1").bind fun out =>
        (server_iteration out.2 (fun _ _ => cdSwap) "T2").map fun out2 =>
          out2.1.map Prod.fst)
      = some [[cpA, cpB]] := by
  constructor
  · decide
  · decide

/-- C1 (amended): after the Game Session Builder's messages are sent,
the tickets of the matched group's members are NOT cleared: no statement
of the loop body writes peer data, so the registry that comes out of an
iteration is exactly the registry that went in, and every matched member
remains ticketed and eligible for regrouping in the next iteration. -/
theorem c1_registry_unchanged (peers : List Peer) (draws : Nat → Nat → Draw) (now : String)
    (out : List (List Peer × List MatchmakingMessage) × List Peer)
    (h : server_iteration peers draws now = some out) : out.2 = peers := by
  unfold server_iteration at h
  obtain ⟨sent, -, hout⟩ := Option.bind_eq_some.mp h
  obtain rfl := Option.some.inj hout
  rfl

/-- C1 witness: the amended theorem applied to the concrete two-peer
registry of the counterexample. -/
theorem c1_registry_unchanged_witness :
    (server_iteration [cpA, cpB] (fun _ _ => cdSwap) "T1").map Prod.snd
      = some [cpA, cpB] := by
  cases e : server_iteration [cpA, cpB] (fun _ _ => cdSwap) "T1" with
  | none => exact absurd e (by decide)
  | some out =>
    have h := c1_registry_unchanged [cpA, cpB] (fun _ _ => cdSwap) "T1" out e
    simp [h]

/-- C2: the receive handler evaluated at ill-formed payloads. A packet
whose bytes are not valid JSON text, a syntactically valid ticket whose
numeric mode is the unknown code 7, and a ticket missing the required
`user` field all make the handler panic (terminating the whole process
and with it the serving loop) instead of disconnecting the offending
peer and continuing. -/
theorem c2_malformed_payload_crashes :
    handle_enet_event_receive none = .crash ∧
    handle_enet_event_receive (some unknownModeJson) = .crash ∧
    handle_enet_event_receive (some missingFieldJson) = .crash := by
  refine ⟨rfl, by decide, by decide⟩

/-- C3 counterexample: peers `cpA` and `cpB` target each other's connect
codes and are both established Direct peers, but with the unrelated
Direct peer `cpX` standing between them in the snapshot the grouping
step emits NO ready group at all — itertools `group_by` only merges
consecutive runs, so the pairing is not independent of their position
among other connected peers. -/
theorem c3_nonadjacent_not_grouped_cex :
    ctA.search.connect_code = some ctB.user.connect_code ∧
    ctB.search.connect_code = some ctA.user.connect_code ∧
    ctA.search.mode = OnlinePlayMode.Direct ∧
    ctB.search.mode = OnlinePlayMode.Direct ∧
    ctX.search.mode = OnlinePlayMode.Direct ∧
    matched_groups .Direct [cpA, cpX, cpB] = some [] ∧
    ((server_iteration [cpA, cpX, cpB] (fun _ _ => cdSwap) "T").map fun out => out.1)
      = some [] := by
  refine ⟨rfl, rfl, rfl, rfl, rfl, by decide, by decide⟩

/-- C4 counterexample: three consecutive Direct peers sharing the same
unordered connect-code-pair key (`cpA`, `cpB` and the stray `cpC`) are
emitted as ONE ready group of 3 members — the implementation does not
cap the group at 2 players — and the subsequent Game Session Builder
call panics (the 2-element randomized port list is indexed at 2), so
`handle_matchmaking` aborts instead of serving a 2-player session. The
draw used is a reachable RNG draw for a 3-member Direct group. -/
theorem c4_uncapped_group_cex :
    matched_groups .Direct [cpA, cpB, cpC] = some [[cpA, cpB, cpC]] ∧
    validDraw .Direct 3 cdIdentity ∧
    handle_matchmaking .Direct [cpA, cpB, cpC] (fun _ => cdIdentity) "T" = none := by
  refine ⟨by decide, by decide, by decide⟩

/-- C5 counterexample: for the 2-player group (ctA, ctB) and the
reachable draw that assigns the ports in swapped order ([Two, One]) with
host port One, the first member's rendered message carries
`is_host = true` although that member's assigned port — the port of its
own entry in the `players` list — is Two, which differs from the chosen
host port One: `is_host` is computed from the unshuffled pool, not from
the assigned ports. -/
theorem c5_is_host_port_mismatch_cex :
    validDraw .Direct 2 cdSwap ∧
    (((create_game [(ctA, cpA.address), (ctB, cpB.address)] .Direct cdSwap "T").bind
          fun msgs => (msgs.get? 0).bind MatchmakingMessage.ticketFields).map
        fun f => (f.is_host, f.players.map Player.port))
      = some (true, [ControllerPort.Two, ControllerPort.One]) ∧
    cdSwap.host_port = some ControllerPort.One ∧
    ControllerPort.Two ≠ ControllerPort.One := by
  refine ⟨by decide, by decide, rfl, by decide⟩

/-- C5 (amended): in every successfully built session, the `is_host`
flag of the message at index `i` is true exactly when the entry at index
`i` of the mode's canonical (unshuffled) port pool equals the chosen
host port — independently of the randomized port actually assigned to
that member in the `players` lists. -/
theorem c5_is_host_from_canonical_ports
    (group : List (CreateTicket × Address)) (mode : OnlinePlayMode) (d : Draw) (now : String)
    (msgs : List MatchmakingMessage)
    (hcg : create_game group mode d now = some msgs)
    (i : Nat) (f : GetTicketFields)
    (hf : (msgs.get? i).bind MatchmakingMessage.ticketFields = some f) :
    (f.is_host = true ↔ (ControllerPort.get_ports mode).get? i = d.host_port) := by
  cases hm : msgs.get? i with
  | none => rw [hm] at hf; simp at hf
  | some m =>
    rw [hm] at hf
    have hf2 : m.ticketFields = some f := hf
    have hi : i < group.length := by
      have hle : i < msgs.length := (List.get?_eq_some.mp hm).1
      have hlen := mapM_option_length _ _ _ hcg
      simpa [hlen] using hle
    have hr : (List.range group.length).get? i = some i := List.get?_range hi
    obtain ⟨y, hy, hfy⟩ := mapM_option_get _ _ _ hcg i i hr
    have hym : y = m := by rw [hy] at hm; exact Option.some.inj hm
    rw [hym] at hfy
    have hfy2 : (((ControllerPort.get_ports mode).get? i).bind fun pi =>
        d.host_port.bind fun hp =>
          (group.enum.mapM fun ja => (d.randomized_ports.get? ja.1).bind
              fun rp => some (Player.new ja.2.1 ja.2.2 (decide (i = ja.1)) rp)).bind
            fun players => some (MatchmakingMessage.getTicketResponse
              { latest_version := LATEST_SLIPPI_CLIENT_VERSION
                match_id := get_match_id mode now
                is_host := decide (pi = hp)
                is_assigned := true
                players := players
                stages := Stage.get_allowed_stages mode })) = some m := hfy
    obtain ⟨pi, hpi, hrest⟩ := Option.bind_eq_some.mp hfy2
    obtain ⟨hp, hhp, hrest2⟩ := Option.bind_eq_some.mp hrest
    obtain ⟨players, -, hmsg⟩ := Option.bind_eq_some.mp hrest2
    obtain rfl := Option.some.inj hmsg
    obtain rfl : GetTicketFields.mk LATEST_SLIPPI_CLIENT_VERSION (get_match_id mode now)
        (decide (pi = hp)) true players (Stage.get_allowed_stages mode) = f :=
      Option.some.inj hf2
    constructor
    · intro hhost
      have : pi = hp := of_decide_eq_true hhost
      rw [hpi, hhp, this]
    · intro hhost
      rw [hpi, hhp] at hhost
      exact decide_eq_true (Option.some.inj hhost)

/-- C5 witness: the amended theorem applied to the 2-player group of the
counterexample with the pool-order draw: message 0 is flagged host
because pool entry 0 (port One) is the host port. -/
theorem c5_is_host_from_canonical_ports_witness :
    ∃ msgs f, create_game [(ctA, cpA.address), (ctB, cpB.address)] .Direct cdIdentity "T"
        = some msgs ∧
      (msgs.get? 0).bind MatchmakingMessage.ticketFields = some f ∧
      (f.is_host = true ↔ (ControllerPort.get_ports .Direct).get? 0 = cdIdentity.host_port) := by
  cases e : create_game [(ctA, cpA.address), (ctB, cpB.address)] .Direct cdIdentity "T" with
  | none => exact absurd e (by decide)
  | some msgs =>
    cases e2 : (msgs.get? 0).bind MatchmakingMessage.ticketFields with
    | none =>
      have e3 : ((create_game [(ctA, cpA.address), (ctB, cpB.address)] .Direct cdIdentity
          "T").bind fun ms => (ms.get? 0).bind MatchmakingMessage.ticketFields) = none := by
        rw [e]; exact e2
      exact absurd e3 (by decide)
    | some f =>
      exact ⟨msgs, f, rfl, e2,
        c5_is_host_from_canonical_ports _ .Direct cdIdentity "T" msgs e 0 f e2⟩

/-- C6: every successfully built 2-player Direct session satisfies the
invariants: exactly one of the two rendered messages has `is_host` true;
each member's assigned port is identical across both recipients'
`players` lists; and each rendered message has exactly one
`is_local_player = true` entry, namely the entry of that message's
recipient. -/
theorem c6_session_invariants
    (t0 t1 : CreateTicket) (a0 a1 : Address) (d : Draw) (now : String)
    (msgs : List MatchmakingMessage)
    (hd : validDraw .Direct 2 d)
    (hcg : create_game [(t0, a0), (t1, a1)] .Direct d now = some msgs) :
    ∃ f0 f1, msgs.map MatchmakingMessage.ticketFields = [some f0, some f1] ∧
      ((f0.is_host = true ∧ f1.is_host = false) ∨
        (f0.is_host = false ∧ f1.is_host = true)) ∧
      f0.players.map Player.port = f1.players.map Player.port ∧
      f0.players.map Player.is_local_player = [true, false] ∧
      f1.players.map Player.is_local_player = [false, true] := by
  obtain ⟨hrlen, -, -, h, hh, hhmem⟩ := hd
  have hlen2 : d.randomized_ports.length = 2 := by
    simpa [ControllerPort.get_ports] using hrlen
  obtain ⟨r0, r1, hr⟩ := List.length_eq_two.mp hlen2
  unfold create_game at hcg
  rw [hr, hh] at hcg
  have hcg2 : some
      [MatchmakingMessage.getTicketResponse
        { latest_version := LATEST_SLIPPI_CLIENT_VERSION
          match_id := get_match_id .Direct now
          is_host := decide (ControllerPort.One = h)
          is_assigned := true
          players := [Player.new t0 a0 true r0, Player.new t1 a1 false r1]
          stages := Stage.get_allowed_stages .Direct },
       MatchmakingMessage.getTicketResponse
        { latest_version := LATEST_SLIPPI_CLIENT_VERSION
          match_id := get_match_id .Direct now
          is_host := decide (ControllerPort.Two = h)
          is_assigned := true
          players := [Player.new t0 a0 false r0, Player.new t1 a1 true r1]
          stages := Stage.get_allowed_stages .Direct }] = some msgs := hcg
  obtain rfl := Option.some.inj hcg2
  refine ⟨_, _, rfl, ?_, rfl, rfl, rfl⟩
  have hmem2 : h = ControllerPort.One ∨ h = ControllerPort.Two := by
    simpa [ControllerPort.get_ports] using hhmem
  rcases hmem2 with rfl | rfl
  · exact Or.inl ⟨rfl, rfl⟩
  · exact Or.inr ⟨rfl, rfl⟩

/-- C6 witness: the invariants theorem applied to the concrete group
(ctA, ctB) with the pool-order draw. -/
theorem c6_session_invariants_witness :
    ∃ msgs f0 f1,
      create_game [(ctA, cpA.address), (ctB, cpB.address)] .Direct cdIdentity "T" = some msgs ∧
      msgs.map MatchmakingMessage.ticketFields = [some f0, some f1] ∧
      ((f0.is_host = true ∧ f1.is_host = false) ∨
        (f0.is_host = false ∧ f1.is_host = true)) ∧
      f0.players.map Player.port = f1.players.map Player.port ∧
      f0.players.map Player.is_local_player = [true, false] ∧
      f1.players.map Player.is_local_player = [false, true] := by
  cases e : create_game [(ctA, cpA.address), (ctB, cpB.address)] .Direct cdIdentity "T" with
  | none => exact absurd e (by decide)
  | some msgs =>
    obtain ⟨f0, f1, h1, h2, h3, h4, h5⟩ :=
      c6_session_invariants ctA ctB cpA.address cpB.address cdIdentity "T" msgs (by decide) e
    exact ⟨msgs, f0, f1, rfl, h1, h2, h3, h4, h5⟩

/-- C7 counterexample: the generated match identifier is NOT the mode
name followed by a hyphen and the timestamp: the code prepends the
literal "mode." (the `format!` string is "mode.{}-{}"), as evaluation at
mode Direct and a concrete timestamp shows. -/
theorem c7_match_id_prefix_cex :
    get_match_id .Direct "2024-05-01T12:00:00+00:00"
        = "mode.direct-2024-05-01T12:00:00+00:00" ∧
    get_match_id .Direct "2024-05-01T12:00:00+00:00"
        ≠ OnlinePlayMode.Direct.display ++ "-" ++ "2024-05-01T12:00:00+00:00" := by
  refine ⟨rfl, by decide⟩

/-- C7 (amended): for every mode and every construction time, the match
identifier is exactly the literal "mode.", then the mode's name, then a
hyphen, then the RFC 3339 timestamp of construction. -/
theorem c7_match_id_format (now : String) :
    get_match_id .Ranked now = "mode.ranked-" ++ now ∧
    get_match_id .Unranked now = "mode.unranked-" ++ now ∧
    get_match_id .Direct now = "mode.direct-" ++ now ∧
    get_match_id .Teams now = "mode.teams-" ++ now := by
  refine ⟨rfl, rfl, rfl, rfl⟩

/-- C8: whenever the `connectCode` field of an inbound ticket's search is
present as a byte array, the decoded target connect code is exactly the
SHIFT_JIS decoding of those bytes followed by NFKC normalization; in
particular the byte array of the repository's own parser test decodes to
"TEST#002". -/
theorem c8_connect_code_decoding :
    (∀ (j v : Json) (bytes : List Nat) (s : Search),
        decodeSearch j = some s → j.getField "connectCode" = some v →
        v.asByteArray = some bytes →
        s.connect_code = some (String.mk (nfkc (sjisDecode bytes)))) ∧
    shift_jis_code_point_array_to_string c8Bytes = some "TEST#002" := by
  constructor
  · intro j v bytes s hdec hgf hba
    unfold decodeSearch at hdec
    rw [hgf] at hdec
    obtain ⟨mode, -, hrest⟩ := Option.bind_eq_some.mp hdec
    have hrest2 : (v.asByteArray.bind fun bs =>
        (shift_jis_code_point_array_to_string bs).bind fun code =>
          some ({ connect_code := some code, mode := mode } : Search)) = some s := hrest
    rw [hba] at hrest2
    have hs : some (Search.mk (some (String.mk (nfkc (sjisDecode bytes)))) mode) = some s :=
      hrest2
    obtain rfl := Option.some.inj hs
    rfl
  · decide

/-- C8 witness: decoding the repository test's `search` JSON, whose
connectCode is present as a byte array, yields the target code
"TEST#002". -/
theorem c8_connect_code_decoding_witness :
    (decodeSearch byteArraySearchJson).map Search.connect_code = some (some "TEST#002") := by
  cases e : decodeSearch byteArraySearchJson with
  | none => exact absurd e (by decide)
  | some s =>
    have h := c8_connect_code_decoding.1 byteArraySearchJson c8BytesJson c8Bytes s e
      (by rfl) (by rfl)
    rw [show (some s).map Search.connect_code = some s.connect_code from rfl, h]
    decide

/-- C9: the wire codec accepts a Direct-mode ticket whose search omits
the `connectCode` field entirely, producing a ticket with no target
code, and the Direct grouping step's key extraction unwraps the target
code of every ticketed peer, so (given that every peer in the snapshot
carries a ticket) the grouping step avoids its panic branch exactly when
every ticket's target connect code is present. -/
theorem c9_optional_target_grouping_precondition :
    decodeCreateTicket directNoCodeJson = some directNoCodeTicket ∧
    directNoCodeTicket.search.mode = OnlinePlayMode.Direct ∧
    directNoCodeTicket.search.connect_code = none ∧
    ∀ peers : List Peer, (∀ p ∈ peers, p.data.isSome) →
      ((matched_groups .Direct peers).isSome = true ↔
        ∀ p ∈ peers, ∀ t, p.data = some t → t.search.connect_code.isSome = true) := by
  refine ⟨by decide, rfl, rfl, ?_⟩
  intro peers hdata
  unfold matched_groups
  rw [if_pos rfl]
  by_cases hall : (peers.all fun p => (peerKey p).isSome) = true
  · rw [if_pos hall]
    constructor
    · intro _ p hp t ht
      have hk := List.all_eq_true.mp hall p hp
      rw [peerKey, ht] at hk
      simpa using hk
    · intro _; rfl
  · rw [if_neg hall]
    constructor
    · intro hfalse; exact absurd hfalse (by simp)
    · intro hcodes
      exfalso
      apply hall
      rw [List.all_eq_true]
      intro p hp
      cases hd : p.data with
      | none => exact absurd (hdata p hp) (by rw [hd]; simp)
      | some t =>
        have hc := hcodes p hp t hd
        rw [peerKey, hd]
        cases hcc : t.search.connect_code with
        | none => rw [hcc] at hc; simp at hc
        | some c =>
          show (Option.map (fun target => ({t.user.connect_code, target} : Finset String))
            t.search.connect_code).isSome = true
          rw [hcc]; rfl

/-- C9 witness: the quantified part applied to two concrete snapshots: a
single peer carrying the no-target Direct ticket makes the grouping step
hit its panic branch, while the snapshot of the ticketed peer `cpA`
does not. -/
theorem c9_optional_target_grouping_precondition_witness :
    matched_groups .Direct [cpNoCode] = none ∧
    (matched_groups .Direct [cpA]).isSome = true := by
  constructor
  · have h := c9_optional_target_grouping_precondition.2.2.2 [cpNoCode] (by decide)
    have hnot : ¬ ∀ p ∈ [cpNoCode],
        ∀ t, p.data = some t → t.search.connect_code.isSome = true := by decide
    cases e : matched_groups .Direct [cpNoCode] with
    | none => rfl
    | some gs => exact absurd (h.mp (by rw [e]; rfl)) hnot
  · exact (c9_optional_target_grouping_precondition.2.2.2 [cpA] (by decide)).mpr (by decide)

/-- C10: for every play mode other than Direct, `handle_matchmaking`
emits no matched group and sends no session message, while the receive
handler attaches any well-formed ticket — whatever its mode — to the
sending peer before the mode dispatch, so non-Direct tickets do reach
the registry. -/
theorem c10_non_direct_no_match :
    ∀ mode, mode ≠ OnlinePlayMode.Direct →
      (∀ (peers : List Peer) (draws : Nat → Draw) (now : String),
          handle_matchmaking mode peers draws now = some []) ∧
      (∀ (j : Json) (t : CreateTicket), decodeCreateTicket j = some t →
          ∃ resp disc, handle_enet_event_receive (some j) = .handled t resp disc) := by
  intro mode hmode
  constructor
  · intro peers draws now
    unfold handle_matchmaking matched_groups
    rw [if_neg hmode]
    rfl
  · intro j t hdec
    have heq : handle_enet_event_receive (some j)
        = match decodeCreateTicket j with
          | none => ReceiveOutcome.crash
          | some message =>
            match message.search.mode with
            | OnlinePlayMode.Direct =>
              ReceiveOutcome.handled message (some MatchmakingMessage.createTicketResponse) false
            | _ => ReceiveOutcome.handled message none true := rfl
    rw [hdec] at heq
    have heq2 : handle_enet_event_receive (some j)
        = match t.search.mode with
          | OnlinePlayMode.Direct =>
            ReceiveOutcome.handled t (some MatchmakingMessage.createTicketResponse) false
          | _ => ReceiveOutcome.handled t none true := heq
    rw [heq2]
    cases ht : t.search.mode <;> exact ⟨_, _, rfl⟩

/-- C3 (amended): two established Direct peers whose tickets target each
other's connect codes are put into the same ready group — regardless of
which of the two comes first, since the unordered-pair key collides
either way — PROVIDED they are adjacent in the snapshot passed to the
grouping step (the itertools `group_by` only merges consecutive runs of
equal keys). The no-panic hypothesis requires every peer of the snapshot
to carry a keyed ticket. -/
theorem c3_adjacent_mutual_grouped
    (l1 l2 : List Peer) (A B : Peer) (ta tb : CreateTicket)
    (hA : A.data = some ta) (hB : B.data = some tb)
    (hat : ta.search.connect_code = some tb.user.connect_code)
    (hbt : tb.search.connect_code = some ta.user.connect_code)
    (hall : ∀ p ∈ l1 ++ A :: B :: l2, (peerKey p).isSome = true) :
    ∃ gs, matched_groups .Direct (l1 ++ A :: B :: l2) = some gs ∧
      ∃ g ∈ gs, A ∈ g ∧ B ∈ g := by
  have hkeyA : peerKey A = some {ta.user.connect_code, tb.user.connect_code} := by
    simp [peerKey, hA, hat]
  have hkeyB : peerKey B = some {tb.user.connect_code, ta.user.connect_code} := by
    simp [peerKey, hB, hbt]
  have hkeq : peerKeyTotal A = peerKeyTotal B := by
    rw [peerKeyTotal, peerKeyTotal, hkeyA, hkeyB]
    simp [Finset.pair_comm]
  have hallb : ((l1 ++ A :: B :: l2).all fun p => (peerKey p).isSome) = true := by
    rw [List.all_eq_true]; exact hall
  have hmg : matched_groups .Direct (l1 ++ A :: B :: l2)
      = some ((chunkRuns peerKeyTotal (l1 ++ A :: B :: l2)).filter fun g => 1 < g.length) := by
    unfold matched_groups; rw [if_pos rfl, if_pos hallb]
  obtain ⟨c, hc, u, v, hcuv⟩ := chunkRuns_adjacent peerKeyTotal A B hkeq l1 l2
  refine ⟨_, hmg, c, ?_, ?_, ?_⟩
  · rw [List.mem_filter]
    refine ⟨hc, ?_⟩
    rw [hcuv]
    simp only [List.length_append, List.length_cons, decide_eq_true_eq]
    omega
  · rw [hcuv]; simp
  · rw [hcuv]; simp

/-- C3 witness: the amended theorem applied to the adjacent snapshot
consisting exactly of the mutually-targeting peers `cpA` and `cpB`. -/
theorem c3_adjacent_mutual_grouped_witness :
    ∃ gs, matched_groups .Direct [cpA, cpB] = some gs ∧
      ∃ g ∈ gs, cpA ∈ g ∧ cpB ∈ g :=
  c3_adjacent_mutual_grouped [] [] cpA cpB ctA ctB rfl rfl rfl rfl (by decide)

/-- C4 (amended): on any Direct group of more than 2 players, with any
draw the RNG can produce, the Game Session Builder fails (the Direct
port pool has 2 entries, `choose_multiple` hence returns 2 randomized
ports, and the port lookup for the third member panics), so no session
is built. -/
theorem c4_oversized_group_builder_fails
    (group : List (CreateTicket × Address)) (d : Draw) (now : String)
    (hlen : 2 < group.length) (hd : validDraw .Direct group.length d) :
    create_game group .Direct d now = none := by
  obtain ⟨hrlen, -, -, h, hh, -⟩ := hd
  have hlen2 : d.randomized_ports.length = 2 := by
    rw [hrlen]
    simp [ControllerPort.get_ports]
    omega
  obtain ⟨x, hx⟩ : ∃ x, group.get? 2 = some x := by
    cases hg : group.get? 2 with
    | none => rw [List.get?_eq_none] at hg; omega
    | some x => exact ⟨x, rfl⟩
  have henum : group.enum.get? 2 = some (2, x) := by
    rw [List.get?_enum, hx]; rfl
  have hmem : ((2 : Nat), x) ∈ group.enum := List.get?_mem henum
  have hget2 : d.randomized_ports.get? 2 = none := List.get?_eq_none.mpr (by omega)
  have hplayers : group.enum.mapM (fun ja => (d.randomized_ports.get? ja.1).bind
      fun rp => some (Player.new ja.2.1 ja.2.2 (decide (0 = ja.1)) rp)) = none := by
    apply mapM_option_eq_none _ _ _ hmem
    rw [hget2]; rfl
  unfold create_game
  apply mapM_option_eq_none _ _ 0 (List.mem_range.mpr (by omega))
  show (((ControllerPort.get_ports .Direct).get? 0).bind fun pi =>
      d.host_port.bind fun hp =>
        (group.enum.mapM fun ja => (d.randomized_ports.get? ja.1).bind
            fun rp => some (Player.new ja.2.1 ja.2.2 (decide (0 = ja.1)) rp)).bind
          fun players => some (MatchmakingMessage.getTicketResponse
            { latest_version := LATEST_SLIPPI_CLIENT_VERSION
              match_id := get_match_id .Direct now
              is_host := decide (pi = hp)
              is_assigned := true
              players := players
              stages := Stage.get_allowed_stages .Direct })) = none
  rw [hh, hplayers]
  rfl

/-- C4 witness: the amended theorem applied to the 3-member group of the
counterexample with a reachable draw. -/
theorem c4_oversized_group_builder_fails_witness :
    create_game [(ctA, cpA.address), (ctB, cpB.address), (ctC, cpC.address)]
      .Direct cdIdentity "T" = none :=
  c4_oversized_group_builder_fails _ cdIdentity "T" (by decide) (by decide)

/-- C10 witness: the theorem applied to Teams mode, a concrete peer list
and the concrete well-formed Teams ticket JSON (which is attached to the
sender even though Teams is not matched). -/
theorem c10_non_direct_no_match_witness :
    handle_matchmaking .Teams [cpA] (fun _ => cdIdentity) "T" = some [] ∧
    ∃ resp disc, handle_enet_event_receive (some teamsJson) = .handled teamsTicket resp disc := by
  have h := c10_non_direct_no_match .Teams (by decide)
  exact ⟨h.1 [cpA] (fun _ => cdIdentity) "T", h.2 teamsJson teamsTicket (by decide)⟩

end OpenMelee
